import Mathlib

/-!
Verification of the ArtParticle3D image-to-particle pipeline.

The development shallowly embeds the core of the repository:

* the pixel sampler `loadImageData` (the `img.onload` body shared by
  `src/unnamed/part_001` and `src/components/ParticleSystem.tsx`), which
  walks a decoded RGBA raster on a grid and builds the four parallel
  particle attribute arrays;
* the legacy sampler variant of `src/src/types.ts`, which builds only
  positions and colors and stores brightness in the z slot;
* the GLSL vertex/fragment shader arithmetic of `src/unnamed/part_001`
  (audio-reactive variant), with `sin`/`cos` abstracted as function
  parameters since GLSL trigonometry is external to the embedding;
* the geometry cache (a JavaScript `Map` modelled as an
  insertion-ordered association list) with its size-capped eviction;
* the per-frame staleness guard of the `ParticleSystem` component.

Machine floats are modelled as exact rationals, RGBA bytes as naturals.
-/

/-- Decoded RGBA raster: width, height and a byte buffer, addressed as
`data i` for flat index `i` (row-major, 4 bytes per pixel, values 0-255). -/
structure Raster where
  width : Nat
  height : Nat
  data : Nat → Nat

/-- Red channel of pixel `(x, y)` normalized to `[0,1]`:
`data[(y*width + x)*4] / 255` in the source. -/
def rAt (img : Raster) (x y : Nat) : ℚ :=
  (img.data ((y * img.width + x) * 4) : ℚ) / 255

/-- Green channel of pixel `(x, y)` normalized to `[0,1]`. -/
def gAt (img : Raster) (x y : Nat) : ℚ :=
  (img.data ((y * img.width + x) * 4 + 1) : ℚ) / 255

/-- Blue channel of pixel `(x, y)` normalized to `[0,1]`. -/
def bAt (img : Raster) (x y : Nat) : ℚ :=
  (img.data ((y * img.width + x) * 4 + 2) : ℚ) / 255

/-- Alpha channel of pixel `(x, y)` normalized to `[0,1]`. -/
def alphaAt (img : Raster) (x y : Nat) : ℚ :=
  (img.data ((y * img.width + x) * 4 + 3) : ℚ) / 255

/-- Brightness of pixel `(x, y)`: `(r + g + b) / 3` in the source. -/
def brightAt (img : Raster) (x y : Nat) : ℚ :=
  (rAt img x y + gAt img x y + bAt img x y) / 3

/-- Clamped density: `Math.max(0.5, Math.min(10, density))` in the source. -/
def safeDensity (density : ℚ) : ℚ :=
  max 0.5 (min 10 density)

/-- Grid step before the large-image cap:
`Math.max(1, Math.round(6 / safeDensity))` in the source.  JavaScript
`Math.round` is `⌊x + 1/2⌋`, which is Mathlib's `round` on `ℚ`. -/
def stepBase (density : ℚ) : ℤ :=
  max 1 (round (6 / safeDensity density))

/-- Grid step actually used by the sampler:
`if (width * height > 2000000 && step < 2) step = 2` in the source. -/
def stepUsed (density : ℚ) (w h : Nat) : ℤ :=
  if 2000000 < w * h ∧ stepBase density < 2 then 2 else stepBase density

/-- Indices visited by `for (v = 0; v < len; v += step)`:
the multiples of `step` below `len`, in ascending order. -/
def gridAxis (len step : Nat) : List Nat :=
  (List.range len).filter (fun v => decide (v % step = 0))

/-- Pixel coordinates visited by the sampler's nested loop, as `(y, x)`
pairs in loop order (outer loop over rows `y`, inner over columns `x`). -/
def gridCoords (img : Raster) (step : Nat) : List (Nat × Nat) :=
  (gridAxis img.height step).flatMap (fun y =>
    (gridAxis img.width step).map (fun x => (y, x)))

/-- Coordinates sampled for a given requested density, using the capped
grid step. -/
def sampledCoords (density : ℚ) (img : Raster) : List (Nat × Nat) :=
  gridCoords img (stepUsed density img.width img.height).toNat

/-- The four parallel attribute arrays built by the sampler loop of
`src/unnamed/part_001` (`positions`, `colors`, `brightnessArr`, `randoms`). -/
structure SampledLists where
  positions : List ℚ
  colors : List ℚ
  brightness : List ℚ
  randoms : List ℚ
deriving DecidableEq

/-- Sampler loop body over a list of `(y, x)` pixel coordinates: skip the
pixel when `a < 0.1`, otherwise push `(x - cx) * 0.1, -(y - cy) * 0.1, 0`
onto `positions`, the normalized color onto `colors`, `(r+g+b)/3` onto
`brightnessArr` and a random seed onto `randoms`.  The per-particle
`Math.random()` draw is modelled by the oracle `rnd y x`. -/
def buildLists (img : Raster) (rnd : Nat → Nat → ℚ) :
    List (Nat × Nat) → SampledLists
  | [] => ⟨[], [], [], []⟩
  | (y, x) :: rest =>
    let s := buildLists img rnd rest
    if alphaAt img x y < 0.1 then s
    else
      ⟨((x : ℚ) - (img.width : ℚ) / 2) * 0.1 ::
         (-(((y : ℚ)) - (img.height : ℚ) / 2) * 0.1) :: (0 : ℚ) :: s.positions,
       rAt img x y :: gAt img x y :: bAt img x y :: s.colors,
       brightAt img x y :: s.brightness,
       rnd y x :: s.randoms⟩

/-- Result type of the sampler in `src/unnamed/part_001`: four parallel
`Float32Array`s plus the `(src, density)` request that produced them. -/
structure GeometryData where
  positions : List ℚ
  colors : List ℚ
  brightness : List ℚ
  randoms : List ℚ
  density : ℚ
  src : String
deriving DecidableEq

/-- Pure core of `loadImageData` from `src/unnamed/part_001`: given the
decoded raster (delivered by the external image loader) build the
`GeometryData` for a request `(src, density)`. -/
def loadImageData (src : String) (density : ℚ) (img : Raster)
    (rnd : Nat → Nat → ℚ) : GeometryData :=
  let s := buildLists img rnd (sampledCoords density img)
  ⟨s.positions, s.colors, s.brightness, s.randoms, density, src⟩

/-! ## Claim C2: grid step bounds -/

/-- C2: for every density (after internal clamping to `[0.5, 10]`) and
every raster of width `w` and height `h`, the grid step
`max(1, round(6 / clamped density))` is a positive integer `≥ 1`, and
whenever `w*h > 2,000,000` the step actually used is `≥ 2`. -/
theorem c2_grid_step_bounds (density : ℚ) (w h : Nat) :
    1 ≤ stepBase density ∧ 1 ≤ stepUsed density w h ∧
      (2000000 < w * h → 2 ≤ stepUsed density w h) := by
  refine ⟨le_max_left _ _, ?_, ?_⟩
  · unfold stepUsed
    split
    · norm_num
    · exact le_max_left _ _
  · intro hwh
    unfold stepUsed
    rcases lt_or_le (stepBase density) 2 with hs | hs
    · rw [if_pos ⟨hwh, hs⟩]
    · split
      · norm_num
      · exact hs

/-- Witness for C2 at density `3` on a `2000 × 1001` raster
(`2002000 > 2000000` pixels). -/
theorem c2_grid_step_bounds_witness :
    1 ≤ stepBase 3 ∧ 1 ≤ stepUsed 3 2000 1001 ∧ 2 ≤ stepUsed 3 2000 1001 :=
  ⟨(c2_grid_step_bounds 3 2000 1001).1,
   (c2_grid_step_bounds 3 2000 1001).2.1,
   (c2_grid_step_bounds 3 2000 1001).2.2 (by norm_num)⟩

/-! ## Legacy sampler variant (`src/src/types.ts`) -/

/-- Result type of the legacy sampler in `src/src/types.ts`: only two
parallel arrays; the third slot of each position triple carries the
particle's brightness rather than `0`. -/
structure GeometryDataLegacy where
  positions : List ℚ
  colors : List ℚ
  density : ℚ
  src : String
deriving DecidableEq

/-- Legacy sampler loop of `src/src/types.ts`: identical skip condition,
but pushes `(x - cx) * 0.1, -(y - cy) * 0.1, brightness` onto `positions`
(`brightness` is stored in the z slot "temporarily" for the CPU
animation loop). -/
def buildListsLegacy (img : Raster) :
    List (Nat × Nat) → List ℚ × List ℚ
  | [] => ([], [])
  | (y, x) :: rest =>
    let s := buildListsLegacy img rest
    if alphaAt img x y < 0.1 then s
    else
      (((x : ℚ) - (img.width : ℚ) / 2) * 0.1 ::
         (-(((y : ℚ)) - (img.height : ℚ) / 2) * 0.1) :: brightAt img x y :: s.1,
       rAt img x y :: gAt img x y :: bAt img x y :: s.2)

/-- Pure core of the legacy `loadImageData` from `src/src/types.ts`
(same clamped density, step and cap logic). -/
def loadImageDataLegacy (src : String) (density : ℚ) (img : Raster) :
    GeometryDataLegacy :=
  let s := buildListsLegacy img (sampledCoords density img)
  ⟨s.1, s.2, density, src⟩

/-! ## Characterization of the sampler loops -/

/-- Coordinates that survive the transparency check `if (a < 0.1) continue`. -/
def visiblePixels (img : Raster) (coords : List (Nat × Nat)) : List (Nat × Nat) :=
  coords.filter (fun p => decide (¬ alphaAt img p.2 p.1 < 0.1))

/-- The sampler loop equals, arrayswise, the per-pixel data of the
alpha-filtered coordinate list. -/
theorem buildLists_char (img : Raster) (rnd : Nat → Nat → ℚ)
    (coords : List (Nat × Nat)) :
    buildLists img rnd coords =
      ⟨(visiblePixels img coords).flatMap (fun p =>
          [((p.2 : ℚ) - (img.width : ℚ) / 2) * 0.1,
           -(((p.1 : ℚ)) - (img.height : ℚ) / 2) * 0.1, 0]),
        (visiblePixels img coords).flatMap (fun p =>
          [rAt img p.2 p.1, gAt img p.2 p.1, bAt img p.2 p.1]),
        (visiblePixels img coords).map (fun p => brightAt img p.2 p.1),
        (visiblePixels img coords).map (fun p => rnd p.1 p.2)⟩ := by
  induction coords with
  | nil => rfl
  | cons p rest ih =>
    obtain ⟨y, x⟩ := p
    by_cases h : alphaAt img x y < 0.1
    · simpa [buildLists, visiblePixels, List.filter_cons, h] using ih
    · simp only [visiblePixels, List.filter_cons] at ih ⊢
      simp [buildLists, h, ih]

/-- The legacy sampler loop equals, arrayswise, the per-pixel data of the
alpha-filtered coordinate list, with brightness in the z slot. -/
theorem buildListsLegacy_char (img : Raster) (coords : List (Nat × Nat)) :
    buildListsLegacy img coords =
      ((visiblePixels img coords).flatMap (fun p =>
          [((p.2 : ℚ) - (img.width : ℚ) / 2) * 0.1,
           -(((p.1 : ℚ)) - (img.height : ℚ) / 2) * 0.1, brightAt img p.2 p.1]),
        (visiblePixels img coords).flatMap (fun p =>
          [rAt img p.2 p.1, gAt img p.2 p.1, bAt img p.2 p.1])) := by
  induction coords with
  | nil => rfl
  | cons p rest ih =>
    obtain ⟨y, x⟩ := p
    by_cases h : alphaAt img x y < 0.1
    · simpa [buildListsLegacy, visiblePixels, List.filter_cons, h] using ih
    · simp only [visiblePixels, List.filter_cons] at ih ⊢
      simp [buildListsLegacy, h, ih]

/-- Idempotence of the alpha filter. -/
theorem visiblePixels_idem (img : Raster) (l : List (Nat × Nat)) :
    visiblePixels img (visiblePixels img l) = visiblePixels img l := by
  simp [visiblePixels, List.filter_filter]

/-- Lengths of the parallel arrays produced by the sampler loop. -/
theorem buildLists_lengths (img : Raster) (rnd : Nat → Nat → ℚ)
    (coords : List (Nat × Nat)) :
    (buildLists img rnd coords).positions.length
        = 3 * (buildLists img rnd coords).brightness.length ∧
      (buildLists img rnd coords).colors.length
        = 3 * (buildLists img rnd coords).brightness.length ∧
      (buildLists img rnd coords).randoms.length
        = (buildLists img rnd coords).brightness.length := by
  induction coords with
  | nil => exact ⟨rfl, rfl, rfl⟩
  | cons p rest ih =>
    obtain ⟨y, x⟩ := p
    by_cases h : alphaAt img x y < 0.1
    · simpa [buildLists, h] using ih
    · simp only [buildLists, h, if_false]
      refine ⟨?_, ?_, ?_⟩ <;> simp <;> omega

/-! ## Claim C8: parallel-sequence count invariant -/

/-- C8: for every dataset produced by the sampler, the four parallel
sequences have equal particle counts — `positions` and `colors` hold
three scalars per particle, `brightness` and `randoms` one. -/
theorem c8_parallel_lengths (src : String) (density : ℚ) (img : Raster)
    (rnd : Nat → Nat → ℚ) :
    (loadImageData src density img rnd).positions.length
        = 3 * (loadImageData src density img rnd).brightness.length ∧
      (loadImageData src density img rnd).colors.length
        = 3 * (loadImageData src density img rnd).brightness.length ∧
      (loadImageData src density img rnd).randoms.length
        = (loadImageData src density img rnd).brightness.length := by
  simpa [loadImageData] using
    buildLists_lengths img rnd (sampledCoords density img)

/-! ## Claim C7: transparent pixels are skipped -/

/-- C7: pixels with normalized alpha `< 0.1` contribute nothing to the
dataset (the loop over all sampled pixels builds the same four arrays as
the loop over only the alpha-passing pixels), and every produced
particle's brightness comes from a sampled pixel with alpha `≥ 0.1`. -/
theorem c7_transparent_pixels_skipped (src : String) (density : ℚ)
    (img : Raster) (rnd : Nat → Nat → ℚ) :
    buildLists img rnd (sampledCoords density img) =
        buildLists img rnd (visiblePixels img (sampledCoords density img)) ∧
      ∀ b ∈ (loadImageData src density img rnd).brightness,
        ∃ p ∈ sampledCoords density img,
          ¬ alphaAt img p.2 p.1 < 0.1 ∧ b = brightAt img p.2 p.1 := by
  constructor
  · rw [buildLists_char, buildLists_char, visiblePixels_idem]
  · intro b hb
    have hb2 : b ∈ (visiblePixels img (sampledCoords density img)).map
        (fun p => brightAt img p.2 p.1) := by
      simpa [loadImageData, buildLists_char] using hb
    rcases List.mem_map.mp hb2 with ⟨p, hp, hpb⟩
    rw [visiblePixels] at hp
    rcases List.mem_filter.mp hp with ⟨hmem, hpred⟩
    exact ⟨p, hmem, of_decide_eq_true hpred, hpb.symm⟩

/-! ## Concrete test raster -/

/-- A fully opaque white `1 × 1` raster (every byte `255`). -/
def whiteRaster : Raster :=
  ⟨1, 1, fun _ => 255⟩

/-- A fixed random oracle for concrete evaluations. -/
def rnd0 : Nat → Nat → ℚ :=
  fun _ _ => 0

/-- The white test raster at density `6` samples exactly its one pixel. -/
theorem sampledCoords_white : sampledCoords 6 whiteRaster = [(0, 0)] := by
  have hstep : stepUsed 6 1 1 = 1 := by
    have hbase : stepBase 6 = 1 := by
      have h6 : safeDensity 6 = 6 := by
        norm_num [safeDensity]
      norm_num [stepBase, h6, round_eq]
    norm_num [stepUsed, hbase]
  have hc : sampledCoords 6 whiteRaster = gridCoords whiteRaster 1 := by
    simp [sampledCoords, whiteRaster, hstep]
  rw [hc]
  decide

/-- Witness for C7 on the white raster: its single particle has
brightness `1` and came from the fully opaque pixel `(0, 0)`. -/
theorem c7_transparent_pixels_skipped_witness :
    (buildLists whiteRaster rnd0 (sampledCoords 6 whiteRaster) =
        buildLists whiteRaster rnd0
          (visiblePixels whiteRaster (sampledCoords 6 whiteRaster))) ∧
      ∃ p ∈ sampledCoords 6 whiteRaster,
        ¬ alphaAt whiteRaster p.2 p.1 < 0.1 ∧
          (1 : ℚ) = brightAt whiteRaster p.2 p.1 :=
  ⟨(c7_transparent_pixels_skipped "img" 6 whiteRaster rnd0).1,
   (c7_transparent_pixels_skipped "img" 6 whiteRaster rnd0).2 1 (by
     simp [loadImageData, sampledCoords_white, buildLists, alphaAt,
       brightAt, rAt, gAt, bAt, whiteRaster]
     norm_num)⟩

/-! ## Claim C6: stored particle positions -/

/-- C6 (amended): in every sampler variant each particle's stored x and y
are exactly `(pixelX - width/2) * 0.1` and `-(pixelY - height/2) * 0.1`;
the stored z is `0` in the shader-based sampler
(`src/unnamed/part_001`, `src/components/ParticleSystem.tsx`), while the
legacy sampler of `src/src/types.ts` stores the particle's brightness
`(r+g+b)/3` in the z slot instead of `0`. -/
theorem c6_position_formula_amended (src : String) (density : ℚ)
    (img : Raster) (rnd : Nat → Nat → ℚ) :
    (loadImageData src density img rnd).positions =
        (visiblePixels img (sampledCoords density img)).flatMap (fun p =>
          [((p.2 : ℚ) - (img.width : ℚ) / 2) * 0.1,
           -(((p.1 : ℚ)) - (img.height : ℚ) / 2) * 0.1, 0]) ∧
      (loadImageDataLegacy src density img).positions =
        (visiblePixels img (sampledCoords density img)).flatMap (fun p =>
          [((p.2 : ℚ) - (img.width : ℚ) / 2) * 0.1,
           -(((p.1 : ℚ)) - (img.height : ℚ) / 2) * 0.1,
           brightAt img p.2 p.1]) := by
  constructor
  · simp [loadImageData, buildLists_char]
  · simp [loadImageDataLegacy, buildListsLegacy_char]

/-- Counterexample to C6 as stated: the legacy sampler of
`src/src/types.ts`, applied to the opaque white `1 × 1` raster at
density `6`, stores `1` (the particle's brightness), not `0`, in the z
slot of its single particle. -/
theorem c6_counterexample :
    (loadImageDataLegacy "img" 6 whiteRaster).positions =
        [-(1/20 : ℚ), 1/20, 1] ∧ (1 : ℚ) ≠ 0 := by
  constructor
  · rw [loadImageDataLegacy]
    rw [sampledCoords_white]
    simp [buildListsLegacy, alphaAt, brightAt, rAt, gAt, bAt, whiteRaster]
    norm_num
  · norm_num

/-! ## Claim C1: per-frame animation formula -/

/-- Body of `main()` in the `vertexShader` of `src/unnamed/part_001`:
depth from brightness with bass boost, dispersion with treble kick and
per-particle noise, then the sine wave over the already-displaced x.
GLSL `sin`/`cos` are abstracted as function parameters; the result is
the displaced `(x, y, z)` of the particle (the source finally writes
`pos.z = z`). -/
def vertexMain (sin cos : ℚ → ℚ)
    (uTime uDepth uDispersion uAudioLow uAudioHigh : ℚ)
    (aBrightness aRandom : ℚ) (pos : ℚ × ℚ × ℚ) : ℚ × ℚ × ℚ :=
  let z := aBrightness * uDepth * (1 + uAudioLow * 0.5)
  let effectiveDispersion := uDispersion + uAudioHigh * 5.0
  let moved :=
    if 0 < effectiveDispersion then
      let spread := effectiveDispersion * 2.0
      let noiseX := sin (aRandom * 100 + uTime * 2) * cos (aRandom * 200)
      let noiseY := cos (aRandom * 100 + uTime * 2) * sin (aRandom * 200)
      (pos.1 + noiseX * spread * aRandom, pos.2.1 + noiseY * spread * aRandom,
        z + (aRandom - 0.5) * spread * 5.0)
    else (pos.1, pos.2.1, z)
  let waveAmp := 1.5 + uAudioLow * 8.0
  let waveFreq := 0.05
  (moved.1, moved.2.1, moved.2.2 + sin (moved.1 * waveFreq + uTime) * waveAmp)

/-- Body of `main()` in the `fragmentShader` of `src/unnamed/part_001`:
the drawn color is `vColor * uBrightness * (1 + uAudioMid * 1.5)`. -/
def fragmentMain (uBrightness uAudioMid : ℚ) (vColor : ℚ × ℚ × ℚ) :
    ℚ × ℚ × ℚ :=
  let pulse := 1 + uAudioMid * 1.5
  (vColor.1 * uBrightness * pulse, vColor.2.1 * uBrightness * pulse,
   vColor.2.2 * uBrightness * pulse)

/-- Modelled from the spec wording of claim C1: the per-particle
displacement formula, written exactly as the claim states it (the `+=`
updates become conditional definitions, the wave uses the
already-displaced x). -/
def specAnimate (sin cos : ℚ → ℚ)
    (t depth dispersion low high brightness seed x0 y0 : ℚ) : ℚ × ℚ × ℚ :=
  let z := brightness * depth * (1 + low * 0.5)
  let effectiveDispersion := dispersion + high * 5.0
  let x := if 0 < effectiveDispersion then
      x0 + sin (seed * 100 + t * 2) * cos (seed * 200) *
        (effectiveDispersion * 2.0) * seed
    else x0
  let y := if 0 < effectiveDispersion then
      y0 + cos (seed * 100 + t * 2) * sin (seed * 200) *
        (effectiveDispersion * 2.0) * seed
    else y0
  let z := if 0 < effectiveDispersion then
      z + (seed - 0.5) * (effectiveDispersion * 2.0) * 5.0
    else z
  let z := z + sin (x * 0.05 + t) * (1.5 + low * 8.0)
  (x, y, z)

/-- Modelled from the spec wording of claim C1: the final particle color
is `color * brightnessConfig * (1 + mid * 1.5)`. -/
def specFragColor (color : ℚ × ℚ × ℚ) (brightnessConfig mid : ℚ) :
    ℚ × ℚ × ℚ :=
  (color.1 * brightnessConfig * (1 + mid * 1.5),
   color.2.1 * brightnessConfig * (1 + mid * 1.5),
   color.2.2 * brightnessConfig * (1 + mid * 1.5))

/-- C1: for every particle, frame time, configuration and audio energy
triple, the shader of `src/unnamed/part_001` computes exactly the
claimed formula: depth `brightness * depth * (1 + low*0.5)`, dispersion
applied only when `dispersion + high*5 > 0` (otherwise x and y stay at
the static grid position), the wave term on the already-displaced x,
and final color `color * brightnessConfig * (1 + mid*1.5)`. -/
theorem c1_animator_formula (sin cos : ℚ → ℚ)
    (t depth dispersion low mid high brightness seed : ℚ)
    (pos color : ℚ × ℚ × ℚ) (brightnessConfig : ℚ) :
    vertexMain sin cos t depth dispersion low high brightness seed pos =
        specAnimate sin cos t depth dispersion low high brightness seed
          pos.1 pos.2.1 ∧
      fragmentMain brightnessConfig mid color =
        specFragColor color brightnessConfig mid := by
  constructor
  · unfold vertexMain specAnimate
    by_cases h : 0 < dispersion + high * 5.0
    · simp only [if_pos h]
    · simp only [if_neg h]
  · rfl

/-! ## Claim C5: point size attenuation -/

/-- Point size computed by the vertex shader:
`gl_PointSize = uSize * (300.0 / -mvPosition.z)` — a direct division by
the negated view-space z, with no epsilon clamp. -/
def pointSize (uSize mvZ : ℚ) : ℚ :=
  uSize * (300 / (-mvZ))

/-- Counterexample to C5 as stated: there are no constants `k` and
`eps > 0` with `pointSize = baseSize * k / max eps distance` — the code
divides by the raw distance with no clamp, so any clamped form disagrees
with it at distances below `eps`. -/
theorem c5_counterexample :
    ¬ ∃ k eps : ℚ, 0 < eps ∧
      ∀ s d : ℚ, pointSize s (-d) = s * k / max eps d := by
  rintro ⟨k, eps, heps, h⟩
  have h1 := h 1 (eps + 1)
  have h2 := h 1 (eps / 2)
  rw [pointSize] at h1 h2
  rw [max_eq_right (by linarith : eps ≤ eps + 1)] at h1
  rw [max_eq_left (by linarith : eps / 2 ≤ eps)] at h2
  simp only [neg_neg, one_mul] at h1 h2
  have heps1 : eps + 1 ≠ 0 := by positivity
  have heps0 : eps ≠ 0 := ne_of_gt heps
  have hk : k = 300 := by
    field_simp at h1
    linarith
  rw [hk] at h2
  field_simp at h2

/-- C5 (amended): the displayed point size is exactly
`baseSize * 300 / distance` with no epsilon clamp; it is positive for
every positive base size and positive view-axis distance, but nothing in
the code guards the `distance = 0` (division by zero) or negative
distance cases. -/
theorem c5_point_size_amended (s d : ℚ) :
    pointSize s (-d) = s * (300 / d) ∧
      (0 < s → 0 < d → 0 < pointSize s (-d)) := by
  constructor
  · rw [pointSize, neg_neg]
  · intro hs hd
    rw [pointSize, neg_neg]
    exact mul_pos hs (div_pos (by norm_num) hd)

/-- Witness for C5 (amended) at base size `1` and distance `2`. -/
theorem c5_point_size_amended_witness :
    pointSize 1 (-2) = 1 * (300 / 2) ∧ 0 < pointSize 1 (-2) :=
  ⟨(c5_point_size_amended 1 2).1,
   (c5_point_size_amended 1 2).2 (by norm_num) (by norm_num)⟩

/-! ## Cache model

The `geometryCache` is a JavaScript `Map`, modelled as an association
list in insertion order (head = oldest).  `Map.set` updates an existing
key in place or appends a fresh one; `Map.keys().next().value` is the
head key; `Map.delete` removes the entry with the given key. -/

/-- JavaScript `Map.has`. -/
def mapHas (m : List (String × GeometryData)) (k : String) : Bool :=
  m.any (fun p => decide (p.1 = k))

/-- JavaScript `Map.get`. -/
def mapGet (m : List (String × GeometryData)) (k : String) :
    Option GeometryData :=
  (m.find? (fun p => decide (p.1 = k))).map Prod.snd

/-- JavaScript `Map.set`: update in place if the key exists, else append
(insertion order is preserved). -/
def mapSet (m : List (String × GeometryData)) (k : String)
    (v : GeometryData) : List (String × GeometryData) :=
  if mapHas m k then m.map (fun p => if p.1 = k then (k, v) else p)
  else m ++ [(k, v)]

/-- JavaScript `Map.keys().next().value`: the first-inserted key. -/
def mapFirstKey (m : List (String × GeometryData)) : Option String :=
  m.head?.map Prod.fst

/-- JavaScript `Map.delete k`. -/
def mapDelete (m : List (String × GeometryData)) (k : String) :
    List (String × GeometryData) :=
  m.eraseP (fun p => decide (p.1 = k))

/-- Cache insertion as performed at the end of the sampler
(`geometryCache.set(cacheKey, result)` followed by the size-capped
eviction `if (geometryCache.size > 10) { const firstKey = ...;
if (firstKey) geometryCache.delete(firstKey); }`).  The JavaScript
truthiness test `if (firstKey)` skips eviction for the empty-string key,
which is faithfully modelled. -/
def cacheInsert (m : List (String × GeometryData)) (k : String)
    (v : GeometryData) : List (String × GeometryData) :=
  let m' := mapSet m k v
  if 10 < m'.length then
    match mapFirstKey m' with
    | some fk => if fk = "" then m' else mapDelete m' fk
    | none => m'
  else m'

/-- Insertion of a sequence of keys into an initially empty cache,
each carrying the dataset `f k`. -/
def insertAll (f : String → GeometryData) (ks : List String) :
    List (String × GeometryData) :=
  ks.foldl (fun m k => cacheInsert m k (f k)) []

/-- Setting a fresh key appends it. -/
theorem mapSet_fresh (m : List (String × GeometryData)) (k : String)
    (v : GeometryData) (hfresh : k ∉ m.map Prod.fst) :
    mapSet m k v = m ++ [(k, v)] := by
  have : mapHas m k = false := by
    simp only [mapHas, List.any_eq_false, decide_eq_true_eq]
    intro p hp hpk
    exact hfresh (hpk ▸ List.mem_map_of_mem Prod.fst hp)
  simp [mapSet, this]

/-- Inserting a fresh key into a cache with at most nine entries appends
it without eviction. -/
theorem cacheInsert_fresh_small (m : List (String × GeometryData))
    (k : String) (v : GeometryData)
    (hfresh : k ∉ m.map Prod.fst) (hlen : m.length + 1 ≤ 10) :
    cacheInsert m k v = m ++ [(k, v)] := by
  rw [cacheInsert, mapSet_fresh m k v hfresh]
  rw [if_neg (by simp; omega)]

/-- Folding fresh, pairwise distinct keys over a small enough cache just
appends them in order. -/
theorem foldl_cacheInsert_fresh (f : String → GeometryData) :
    ∀ (ks : List String) (m : List (String × GeometryData)),
      ks.Nodup → (∀ k ∈ ks, k ∉ m.map Prod.fst) →
      m.length + ks.length ≤ 10 →
      ks.foldl (fun m k => cacheInsert m k (f k)) m =
        m ++ ks.map (fun k => (k, f k))
  | [], m, _, _, _ => by simp
  | k :: ks, m, hnd, hfresh, hlen => by
    simp only [List.foldl_cons]
    rw [cacheInsert_fresh_small m k (f k) (hfresh k (List.mem_cons_self k ks))
      (by simp at hlen; omega)]
    rw [foldl_cacheInsert_fresh f ks (m ++ [(k, f k)])
      (List.nodup_cons.mp hnd).2
      (by
        intro k2 hk2 hmem
        rw [List.map_append] at hmem
        rcases List.mem_append.mp hmem with h | h
        · exact hfresh k2 (List.mem_cons_of_mem k hk2) h
        · have hk2k : k2 = k := by simpa using h
          exact (List.nodup_cons.mp hnd).1 (hk2k ▸ hk2))
      (by simp at hlen ⊢; omega)]
    simp

/-- Keys of a cache built as `(k, f k)` pairs. -/
theorem map_fst_pairs (f : String → GeometryData) (l : List String) :
    (l.map (fun k => (k, f k))).map Prod.fst = l := by
  induction l with
  | nil => rfl
  | cons a l ih => simp [ih]

/-! ## Claim C4: cache bound and FIFO eviction -/

/-- C4: inserting 11 distinct keys into the initially empty cache leaves
at most 10 entries, the first-inserted key evicted (FIFO by insertion
order); in fact exactly the 10 later keys remain, in insertion order.
The hypothesis `k0 ≠ ""` reflects that every real cache key has the form
`src + "-" + density` and is therefore nonempty (the code's truthiness
test `if (firstKey)` would skip eviction only for an empty-string key,
which the code never produces). -/
theorem c4_cache_bound (f : String → GeometryData) (k0 : String)
    (rest : List String) (hlen : rest.length = 10)
    (hnd : (k0 :: rest).Nodup) (hk0 : k0 ≠ "") :
    (insertAll f (k0 :: rest)).length ≤ 10 ∧
      k0 ∉ (insertAll f (k0 :: rest)).map Prod.fst ∧
      insertAll f (k0 :: rest) = rest.map (fun k => (k, f k)) := by
  have hrest_ne : rest ≠ [] := by
    intro hemp
    rw [hemp] at hlen
    simp at hlen
  set r9 := rest.dropLast with hr9
  set klast := rest.getLast hrest_ne with hklast
  have hsplit : rest = r9 ++ [klast] := (List.dropLast_append_getLast hrest_ne).symm
  have hr9len : r9.length = 9 := by
    rw [hr9, List.length_dropLast, hlen]
  have hnd' : (k0 :: rest).Nodup := hnd
  rw [hsplit] at hnd'
  have hk0rest : k0 ∉ rest := (List.nodup_cons.mp hnd).1
  have hk0r9 : k0 ∉ r9 := fun h => hk0rest (hsplit ▸ List.mem_append_left _ h)
  have hk0klast : k0 ≠ klast := by
    intro h
    exact hk0rest (hsplit ▸ List.mem_append_right _ (h ▸ List.mem_singleton_self _))
  have hrestnd : rest.Nodup := (List.nodup_cons.mp hnd).2
  have hklr9 : klast ∉ r9 := by
    have := hsplit ▸ hrestnd
    intro hmem
    rcases List.nodup_append.mp this with ⟨_, _, hdisj⟩
    exact hdisj hmem (List.mem_singleton_self _)
  have hr9nd : r9.Nodup := by
    have := hsplit ▸ hrestnd
    exact (List.nodup_append.mp this).1
  -- fold the first ten keys: they all append
  have hfold10 : insertAll f (k0 :: r9) =
      (k0 :: r9).map (fun k => (k, f k)) := by
    rw [insertAll, foldl_cacheInsert_fresh f (k0 :: r9) []
      (List.nodup_cons.mpr ⟨hk0r9, hr9nd⟩) (by simp) (by simp [hr9len])]
    simp
  have hsplitAll : insertAll f (k0 :: rest) =
      cacheInsert (insertAll f (k0 :: r9)) klast (f klast) := by
    rw [insertAll, insertAll]
    rw [show k0 :: rest = (k0 :: r9) ++ [klast] by rw [hsplit]; rfl]
    rw [List.foldl_append]
    rfl
  have hM : insertAll f (k0 :: rest) =
      cacheInsert ((k0 :: r9).map (fun k => (k, f k))) klast (f klast) := by
    rw [hsplitAll, hfold10]
  -- the eleventh insertion appends then evicts the head
  have hfreshlast : klast ∉ ((k0 :: r9).map (fun k => (k, f k))).map Prod.fst := by
    rw [map_fst_pairs]
    intro hmem
    rcases List.mem_cons.mp hmem with h | h
    · exact hk0klast h.symm
    · exact hklr9 h
  have hset : mapSet ((k0 :: r9).map (fun k => (k, f k))) klast (f klast) =
      (k0 :: r9).map (fun k => (k, f k)) ++ [(klast, f klast)] :=
    mapSet_fresh _ _ _ hfreshlast
  have hfinal : insertAll f (k0 :: rest) =
      r9.map (fun k => (k, f k)) ++ [(klast, f klast)] := by
    rw [hM, cacheInsert, hset]
    rw [if_pos (by simp [hr9len])]
    rw [show mapFirstKey ((k0 :: r9).map (fun k => (k, f k)) ++ [(klast, f klast)])
        = some k0 by simp [mapFirstKey]]
    simp only [hk0, if_false]
    rw [mapDelete]
    simp only [List.map_cons, List.cons_append]
    rw [List.eraseP_cons_of_pos (by simp)]
  have hfinal' : insertAll f (k0 :: rest) = rest.map (fun k => (k, f k)) := by
    rw [hfinal, hsplit]
    simp
  refine ⟨?_, ?_, hfinal'⟩
  · rw [hfinal']
    simp [hlen]
  · rw [hfinal', map_fst_pairs]
    exact hk0rest

/-- Witness for C4: eleven concrete distinct nonempty keys. -/
theorem c4_cache_bound_witness :
    (insertAll (fun _ => ⟨[], [], [], [], 1, ""⟩)
        ["k00", "k01", "k02", "k03", "k04", "k05", "k06", "k07", "k08",
         "k09", "k10"]).length ≤ 10 ∧
      "k00" ∉ (insertAll (fun _ => ⟨[], [], [], [], 1, ""⟩)
        ["k00", "k01", "k02", "k03", "k04", "k05", "k06", "k07", "k08",
         "k09", "k10"]).map Prod.fst ∧
      insertAll (fun _ => ⟨[], [], [], [], 1, ""⟩)
          ["k00", "k01", "k02", "k03", "k04", "k05", "k06", "k07", "k08",
           "k09", "k10"] =
        ["k01", "k02", "k03", "k04", "k05", "k06", "k07", "k08", "k09",
         "k10"].map (fun k => (k, ⟨[], [], [], [], 1, ""⟩)) :=
  c4_cache_bound (fun _ => ⟨[], [], [], [], 1, ""⟩) "k00"
    ["k01", "k02", "k03", "k04", "k05", "k06", "k07", "k08", "k09", "k10"]
    (by decide) (by decide) (by decide)

/-! ## Claim C3: staleness guard -/

/-- Number of particles drawn by the `ParticleSystem` render step: the
strict sync check
`if (!geometryData || geometryData.density !== config.density ||
geometryData.src !== imageUrl) return null;` yields nothing, otherwise
the `<points>` element draws `positions.length / 3` particles. -/
def renderedCount (geometryData : Option GeometryData) (imageUrl : String)
    (density : ℚ) : Nat :=
  match geometryData with
  | none => 0
  | some g =>
    if g.density ≠ density ∨ g.src ≠ imageUrl then 0
    else g.positions.length / 3

/-- C3: whenever the held dataset's source image identity or density
differs from the currently requested pair, the render step produces zero
particles. -/
theorem c3_stale_renders_nothing (g : GeometryData) (imageUrl : String)
    (density : ℚ) (h : g.src ≠ imageUrl ∨ g.density ≠ density) :
    renderedCount (some g) imageUrl density = 0 := by
  rw [renderedCount]
  rcases h with h | h
  · rw [if_pos (Or.inr h)]
  · rw [if_pos (Or.inl h)]

/-- Witness for C3: a dataset built for `("imageA", 2)` is not rendered
when the request is `("imageB", 2)`. -/
theorem c3_stale_renders_nothing_witness :
    renderedCount (some ⟨[0, 0, 0], [1, 1, 1], [1], [0], 2, "imageA"⟩)
      "imageB" 2 = 0 :=
  c3_stale_renders_nothing ⟨[0, 0, 0], [1, 1, 1], [1], [0], 2, "imageA"⟩
    "imageB" 2 (Or.inl (by decide))

/-! ## Claim C9: request de-duplication -/

/-- State of the loader: the completed-result cache plus the keys whose
builds have been started but not yet completed (each `new Promise` whose
`img.onload` has not fired). -/
structure LoaderState where
  cache : List (String × GeometryData)
  inFlight : List String
deriving DecidableEq

/-- Outcome of the synchronous prefix of `loadImageData`: either the
cached dataset is returned at once, or a fresh build is started. -/
inductive StartResult where
  | cached (v : GeometryData)
  | buildStarted
deriving DecidableEq

/-- Synchronous prefix of `loadImageData` in `src/unnamed/part_001`:
`if (geometryCache.has(cacheKey)) return Promise.resolve(...)`, else a
new `Image` load (and hence a new decode+sample build) is started.  No
record of in-flight builds is consulted or kept. -/
def startLoad (st : LoaderState) (key : String) : LoaderState × StartResult :=
  match mapGet st.cache key with
  | some v => (st, StartResult.cached v)
  | none => (⟨st.cache, key :: st.inFlight⟩, StartResult.buildStarted)

/-- Completion of a build (`img.onload`): the result is inserted into
the cache (with eviction) and the build leaves the in-flight set. -/
def completeLoad (st : LoaderState) (key : String) (v : GeometryData) :
    LoaderState :=
  ⟨cacheInsert st.cache key v, st.inFlight.erase key⟩

/-- Counterexample to C9 as stated: starting from an empty cache, a
request for key `"a-2"` starts a build, and a second request for the
same key issued before the first build completes starts a second build —
two builds for the same key are then in flight concurrently, so the
decode+sample work is duplicated. -/
theorem c9_counterexample :
    (startLoad ⟨[], []⟩ "a-2").2 = StartResult.buildStarted ∧
      (startLoad (startLoad ⟨[], []⟩ "a-2").1 "a-2").2 =
        StartResult.buildStarted ∧
      (startLoad (startLoad ⟨[], []⟩ "a-2").1 "a-2").1.inFlight =
        ["a-2", "a-2"] := by
  refine ⟨rfl, rfl, rfl⟩

/-- C9 (amended): requests are de-duplicated only through the
completed-result cache — a request for a cached key returns the cached
dataset without starting any build, while a request for an uncached key
always starts a new build, even when a build for the same key is already
in flight (so concurrent duplicate builds are possible). -/
theorem c9_dedup_amended (st : LoaderState) (key : String) :
    (∀ v, mapGet st.cache key = some v →
        startLoad st key = (st, StartResult.cached v)) ∧
      (mapGet st.cache key = none →
        startLoad st key =
          (⟨st.cache, key :: st.inFlight⟩, StartResult.buildStarted)) := by
  constructor
  · intro v hv
    rw [startLoad, hv]
  · intro hnone
    rw [startLoad, hnone]

/-- Witness for C9 (amended): a cached key is answered from the cache;
an uncached key starts a build even with the same key already in
flight. -/
theorem c9_dedup_amended_witness :
    (startLoad ⟨[("a-2", ⟨[], [], [], [], 2, "a"⟩)], []⟩ "a-2" =
        (⟨[("a-2", ⟨[], [], [], [], 2, "a"⟩)], []⟩,
          StartResult.cached ⟨[], [], [], [], 2, "a"⟩)) ∧
      (startLoad ⟨[], ["b-3"]⟩ "b-3" =
        (⟨[], ["b-3", "b-3"]⟩, StartResult.buildStarted)) :=
  ⟨(c9_dedup_amended ⟨[("a-2", ⟨[], [], [], [], 2, "a"⟩)], []⟩ "a-2").1
      ⟨[], [], [], [], 2, "a"⟩ rfl,
    (c9_dedup_amended ⟨[], ["b-3"]⟩ "b-3").2 rfl⟩

/-! ## Claim C10: cache key exactness -/

/-- Cache key computed by `loadImageData`: the template literal
`${src}-${density}`, with the density rendered by a number-to-string
function `numStr` (JavaScript number formatting, external to the core). -/
def cacheKeyWith (numStr : ℚ → String) (src : String) (density : ℚ) :
    String :=
  src ++ "-" ++ numStr density

/-- Cache key with Lean's rational rendering standing in for JavaScript
number formatting (the two agree on integral densities such as `-3`). -/
def cacheKey (src : String) (density : ℚ) : String :=
  cacheKeyWith toString src density

/-- Appending strings concatenates their character data. -/
theorem string_data_append (s t : String) : (s ++ t).data = s.data ++ t.data := by
  cases s
  cases t
  rfl

/-- Splitting a character list at a character absent from the prefix is
unambiguous. -/
theorem append_cons_inj (a : Char) :
    ∀ (l1 l2 r1 r2 : List Char), a ∉ l1 → a ∉ l2 →
      l1 ++ a :: r1 = l2 ++ a :: r2 → l1 = l2 ∧ r1 = r2 := by
  intro l1
  induction l1 with
  | nil =>
    intro l2 r1 r2 h1 h2 h
    cases l2 with
    | nil => simpa using h
    | cons c t =>
      simp only [List.nil_append, List.cons_append, List.cons.injEq] at h
      exact absurd (List.mem_cons.mpr (Or.inl h.1)) h2
  | cons c t ih =>
    intro l2 r1 r2 h1 h2 h
    cases l2 with
    | nil =>
      simp only [List.cons_append, List.nil_append, List.cons.injEq] at h
      exact absurd (List.mem_cons.mpr (Or.inl h.1.symm)) h1
    | cons c2 t2 =>
      simp only [List.cons_append, List.cons.injEq] at h
      obtain ⟨hc, ht⟩ := h
      have h1' : a ∉ t := fun hm => h1 (List.mem_cons_of_mem c hm)
      have h2' : a ∉ t2 := fun hm => h2 (List.mem_cons_of_mem c2 hm)
      obtain ⟨hts, hrs⟩ := ih t2 r1 r2 h1' h2' ht
      exact ⟨by rw [hc, hts], hrs⟩

/-- Character data of a cache key. -/
theorem cacheKeyWith_data (numStr : ℚ → String) (src : String) (d : ℚ) :
    (cacheKeyWith numStr src d).data =
      src.data ++ '-' :: (numStr d).data := by
  rw [cacheKeyWith, string_data_append, string_data_append]
  rw [show ("-" : String).data = ['-'] from rfl]
  rw [List.append_assoc]
  rfl

/-- Counterexample to C10 as stated: the two distinct requests
`("a", -3)` and `("a-", 3)` produce the same cache key `"a--3"`, so
distinct `(image identity, density)` pairs can map to the same cache
entry and would receive each other's memoized dataset. -/
theorem c10_counterexample :
    cacheKey "a" (-3) = cacheKey "a-" 3 ∧
      ¬ ("a" = "a-" ∧ (-3 : ℚ) = 3) := by
  constructor
  · exact of_decide_eq_true rfl
  · intro h
    exact absurd h.1 (by decide)

/-- C10 (amended): the cache key is exact whenever the rendered density
strings contain no `'-'` separator character and the rendering does not
conflate the two densities — in particular for the UI's positive
densities.  Without that proviso distinct pairs can collide (see the
counterexample). -/
theorem c10_cache_key_amended (numStr : ℚ → String) (src1 src2 : String)
    (d1 d2 : ℚ) (h1 : ('-' : Char) ∉ (numStr d1).data)
    (h2 : ('-' : Char) ∉ (numStr d2).data)
    (hinj : numStr d1 = numStr d2 → d1 = d2) :
    cacheKeyWith numStr src1 d1 = cacheKeyWith numStr src2 d2 ↔
      src1 = src2 ∧ d1 = d2 := by
  constructor
  · intro h
    have hd : src1.data ++ '-' :: (numStr d1).data =
        src2.data ++ '-' :: (numStr d2).data := by
      rw [← cacheKeyWith_data, ← cacheKeyWith_data, h]
    have hrev : (numStr d1).data.reverse ++ '-' :: src1.data.reverse =
        (numStr d2).data.reverse ++ '-' :: src2.data.reverse := by
      have h' := congrArg List.reverse hd
      rw [List.reverse_append, List.reverse_append, List.reverse_cons,
        List.reverse_cons, List.append_assoc, List.append_assoc] at h'
      simpa [List.singleton_append] using h'
    have hna : ('-' : Char) ∉ (numStr d1).data.reverse := by
      simpa [List.mem_reverse] using h1
    have hnb : ('-' : Char) ∉ (numStr d2).data.reverse := by
      simpa [List.mem_reverse] using h2
    obtain ⟨hn, hs⟩ :=
      append_cons_inj '-' (numStr d1).data.reverse (numStr d2).data.reverse
        src1.data.reverse src2.data.reverse hna hnb hrev
    have hsrc : src1 = src2 :=
      String.ext (List.reverse_injective hs)
    have hnum : numStr d1 = numStr d2 :=
      String.ext (List.reverse_injective hn)
    exact ⟨hsrc, hinj hnum⟩
  · rintro ⟨rfl, rfl⟩
    rfl

/-- Witness for C10 (amended): the keys for `("a", 2)` and `("b", 3)`
differ exactly because the pairs differ. -/
theorem c10_cache_key_amended_witness :
    cacheKeyWith toString "a" 2 = cacheKeyWith toString "b" 3 ↔
      ("a" = "b" ∧ (2 : ℚ) = 3) :=
  c10_cache_key_amended toString "a" "b" 2 3 (by decide) (by decide)
    (fun h => absurd h (by decide))
